import Mathlib

/-!
Verification development for the scrolling-capture pipeline of
`screenshot_capture.py` (repository `screenshot2react`).

The functions of the source file are shallowly embedded as executable Lean
definitions.  Python integers become `ℤ`/`ℕ`; the float arithmetic of the
easing computation (`1 - pow(1 - t, 3)`, `round`) is modelled over `ℚ` with
Python's banker's rounding; effects on the browser page are modelled by an
explicit environment (`Env`) and state (`St`); fallible screenshot calls
are driven by an oracle `cap : ℕ → Bool` (the k-th capture succeeds iff
`cap k`); the two random draws of each scroll segment (`random.randint(800,
1100)` and `int(random.uniform(0.07, 0.09) * 1000)`) are supplied by an
oracle `rand : ℕ → ℕ × ℕ` indexed by the segment number.  The `while` loop
of `record_scrolling_video_sync` is written with a fuel parameter; fuel
exhaustion is a distinguished outcome proved unreachable for the fuel used.
-/

namespace Shot

/-- Python's `round` on a real value: round half to even (banker's
rounding), as used in `int(round(start_y + distance * eased))`. -/
def pyRound (q : ℚ) : ℤ :=
  let f := ⌊q⌋
  let r := q - f
  if r < 1/2 then f
  else if 1/2 < r then f + 1
  else if f % 2 = 0 then f else f + 1

/-- Python's `round` applied to the fraction `a / b` (for `0 < b`),
computed purely over `ℤ` so that the kernel can evaluate it:
`f = ⌊a/b⌋`, and the fractional remainder `a - f*b` is compared with
`b/2` by comparing its double with `b`. -/
def pyRoundFrac (a b : ℤ) : ℤ :=
  let f := a.fdiv b
  let r2 := 2 * (a - f * b)
  if r2 < b then f
  else if b < r2 then f + 1
  else if f % 2 = 0 then f else f + 1

/-- Cubing, written out so the kernel evaluates it. -/
def cube (z : ℤ) : ℤ := z * z * z

/-- The eased intermediate offset of source lines 198-201:
`t = i / frames_in_segment`, `eased = 1 - pow(1 - t, 3)`,
`y = int(round(start_y + distance * eased))`.  The exact value of
`start_y + distance * eased` is the fraction
`(start_y * n³ + distance * (n³ - (n - i)³)) / n³`; see
`easedY_eq_pyRound` below for the correspondence with the `ℚ`-level
formula. -/
def easedY (startY distance : ℤ) (i n : ℕ) : ℤ :=
  pyRoundFrac (startY * cube (n : ℤ) + distance * (cube (n : ℤ) - cube ((n : ℤ) - (i : ℤ))))
    (cube (n : ℤ))

/-- Browser-side page environment for `record_scrolling_video_sync`.
`measuredHeight` is the value returned by the single height `evaluate` at
the start of recording (line 130); `actualHeight` is the page's true
scrollable height governing how the browser clamps `window.scrollTo`
during the run (it may exceed `measuredHeight` when lazy-loaded content
grew after the measurement); `viewportHeight` is `page.viewport_size["height"]`. -/
structure Env where
  measuredHeight : ℤ
  actualHeight : ℤ
  viewportHeight : ℤ
deriving Repr, DecidableEq

/-- Maximum physical scroll offset the browser allows. -/
def Env.maxPhys (e : Env) : ℤ := max 0 (e.actualHeight - e.viewportHeight)

/-- Browser clamping of a requested `window.scrollTo(0, y)`. -/
def Env.clampY (e : Env) (y : ℤ) : ℤ := max 0 (min y e.maxPhys)

/-- Observable recording state: captured frame indices (in capture order),
the frame counter, every `scrollTo` target issued, and the page's current
physical scroll offset. -/
structure St where
  frames : List ℕ
  frameCount : ℕ
  scrollTargets : List ℤ
  scrollY : ℤ
deriving Repr, DecidableEq

/-- Outcome of a sequence of capture operations: normal completion or a
propagating screenshot exception (with the state reached so far). -/
inductive CapRes where
  | ok (st : St)
  | exn (st : St)
deriving Repr, DecidableEq

/-- State carried by a `CapRes`. -/
def CapRes.st : CapRes → St
  | .ok st => st
  | .exn st => st

/-- One `page.screenshot(path=frame_path)` call with
`frame_path = f"frame_\x7bframe_count:04d\x7d.png"`: on success the current
frame index is recorded and the counter incremented; on failure the
exception propagates. -/
def capture (cap : ℕ → Bool) (st : St) : CapRes :=
  if cap st.frameCount then
    .ok { st with frames := st.frames ++ [st.frameCount], frameCount := st.frameCount + 1 }
  else .exn st

/-- A settle/pause burst: `for i in range(n): page.screenshot(...)`. -/
def burst (cap : ℕ → Bool) : ℕ → St → CapRes
  | 0, st => .ok st
  | n + 1, st =>
    match capture cap st with
    | .exn st' => .exn st'
    | .ok st' => burst cap n st'

/-- The eased per-frame segment loop (source lines 197-212):
`for i in range(1, frames_in_segment + 1)`, with
`t = i / frames_in_segment`, `eased = 1 - pow(1 - t, 3)`,
`y = int(round(start_y + distance * eased))`, `window.scrollTo(0, y)`,
one screenshot, and an early break once `y >= target_scroll - 1`.
`remaining` counts the iterations left; the initial call uses
`remaining = n`, `i = 1`. -/
def easeLoop (e : Env) (cap : ℕ → Bool) (startY distance targetScroll : ℤ) (n : ℕ) :
    ℕ → ℕ → St → CapRes
  | 0, _, st => .ok st
  | remaining + 1, i, st =>
    let y : ℤ := easedY startY distance i n
    let st₁ : St := { st with
      scrollTargets := st.scrollTargets ++ [y]
      scrollY := e.clampY y }
    match capture cap st₁ with
    | .exn st₂ => .exn st₂
    | .ok st₂ =>
      if y ≥ targetScroll - 1 then .ok st₂
      else easeLoop e cap startY distance targetScroll n remaining (i + 1) st₂

/-- Outcome of the outer `while` loop: normal exit, capture exception, or
fuel exhaustion (a model artifact, proved unreachable for the fuel used). -/
inductive LoopRes where
  | ok (st : St)
  | exn (st : St)
  | fuelOut (st : St)
deriving Repr, DecidableEq

/-- State carried by a `LoopRes`. -/
def LoopRes.st : LoopRes → St
  | .ok st => st
  | .exn st => st
  | .fuelOut st => st

/-- The outer scroll loop of `record_scrolling_video_sync` (source lines
182-254): `while current_scroll < max_scroll_top - 2`, one eased segment,
read-back of the authoritative offset, termination when it did not move,
a 12-frame pause burst, and the 360-frame safety cap. `seg` numbers the
segments for the randomness oracle. -/
def outerLoop (e : Env) (cap : ℕ → Bool) (rand : ℕ → ℕ × ℕ)
    (scrollStep maxScrollTop : ℤ) : ℕ → ℕ → ℤ → St → LoopRes
  | 0, _, _, st => .fuelOut st
  | fuel + 1, seg, current, st =>
    if current < maxScrollTop - 2 then
      let targetScroll : ℤ := min (current + scrollStep) maxScrollTop
      let d : ℕ := (rand seg).1
      let ivMs : ℕ := (rand seg).2
      let framesInSegment : ℕ := max 8 (d / ivMs)
      let startY : ℤ := current
      let distance : ℤ := max 0 (targetScroll - startY)
      if distance ≤ 0 then .ok st
      else
        match easeLoop e cap startY distance targetScroll framesInSegment framesInSegment 1 st with
        | .exn st₁ => .exn st₁
        | .ok st₁ =>
          let actualScroll : ℤ := st₁.scrollY
          if actualScroll = current then .ok st₁
          else
            match burst cap 12 st₁ with
            | .exn st₂ => .exn st₂
            | .ok st₂ =>
              if st₂.frameCount > 360 then .ok st₂
              else outerLoop e cap rand scrollStep maxScrollTop fuel (seg + 1) actualScroll st₂
    else .ok st

/-- External encoder environment: whether `ffmpeg` is reachable
(`subprocess.run(['ffmpeg', '-version'], ...)` succeeds) and the return
code of the encode invocation. -/
structure VideoEnv where
  ffmpegAvailable : Bool
  encodeReturncode : ℤ
deriving Repr, DecidableEq

/-- The encode command built in `create_video_from_frames_sync`
(source lines 31-40). -/
def ffmpegCmd (framesDir outputPath : String) : List String :=
  ["ffmpeg", "-y", "-framerate", "12", "-i", framesDir ++ "/frame_%04d.png",
   "-c:v", "libx264", "-pix_fmt", "yuv420p", "-crf", "23", outputPath]

/-- Result of `create_video_from_frames_sync`: the returned boolean and
the list of encode commands actually run (the `ffmpeg -version` probe is
not an encode invocation). -/
structure VideoOutcome where
  ok : Bool
  encodeCmds : List (List String)
deriving Repr, DecidableEq

/-- `create_video_from_frames_sync` (source lines 17-53): if `ffmpeg` is
missing, report failure without encoding; otherwise run the encode command
once and succeed iff its return code is 0. -/
def create_video_from_frames_sync (venv : VideoEnv) (framesDir outputPath : String)
    (_frameCount : ℕ) : VideoOutcome :=
  if venv.ffmpegAvailable = false then { ok := false, encodeCmds := [] }
  else { ok := decide (venv.encodeReturncode = 0), encodeCmds := [ffmpegCmd framesDir outputPath] }

/-- The video-assembly branch of `record_scrolling_video_sync` (source
lines 266-270): `if frames and len(frames) > 1` invoke the encoder, else
report success with no video. Returns the reported boolean, whether the
assembler was invoked, and the encode commands run. -/
def assembleVideo (venv : VideoEnv) (framesDir outputPath : String)
    (frames : List ℕ) (frameCount : ℕ) : Bool × Bool × List (List String) :=
  if frames ≠ [] ∧ 1 < frames.length then
    let v := create_video_from_frames_sync venv framesDir outputPath frameCount
    (v.ok, true, v.encodeCmds)
  else (true, false, [])

/-- Observable result of one `record_scrolling_video_sync` session. -/
structure RecResult where
  success : Bool
  frames : List ℕ
  scrollTargets : List ℤ
  finalScrollY : ℤ
  assemblerCalled : Bool
  encodeCmds : List (List String)
  fuelExhausted : Bool
deriving Repr, DecidableEq

/-- Result of aborting the session on a propagating exception (source
lines 277-281): return `False`; the temp directory (and with it every
frame file) is removed. -/
def mkFail (st : St) : RecResult :=
  { success := false, frames := st.frames, scrollTargets := st.scrollTargets,
    finalScrollY := st.scrollY, assemblerCalled := false, encodeCmds := [],
    fuelExhausted := false }

/-- `record_scrolling_video_sync` (source lines 120-281): the too-short
check (`total_height <= viewport_height * 1.5`), the 12-frame initial
settle burst, `scroll_step = viewport_height - 100`,
`max_scroll_top = max(0, int(total_height) - int(viewport_height))`, the
one-time 60px wheel tick, the eased scroll loop, the 12-frame final settle
burst, and the assembly branch. -/
def record_scrolling_video_sync (e : Env) (cap : ℕ → Bool) (rand : ℕ → ℕ × ℕ)
    (venv : VideoEnv) (tempDir videoOutputPath : String) : RecResult :=
  -- `total_height <= viewport_height * 1.5`, stated exactly over `ℤ`;
  -- see `tooShort_iff` below.
  if 2 * e.measuredHeight ≤ 3 * e.viewportHeight then
    { success := true, frames := [], scrollTargets := [], finalScrollY := 0,
      assemblerCalled := false, encodeCmds := [], fuelExhausted := false }
  else
    let st0 : St := { frames := [], frameCount := 0, scrollTargets := [], scrollY := 0 }
    match burst cap 12 st0 with
    | .exn st => mkFail st
    | .ok st₁ =>
      let scrollStep : ℤ := e.viewportHeight - 100
      let maxScrollTop : ℤ := max 0 (e.measuredHeight - e.viewportHeight)
      let st₂ : St := { st₁ with scrollY := e.clampY (st₁.scrollY + 60) }
      match outerLoop e cap rand scrollStep maxScrollTop 100 0 0 st₂ with
      | .fuelOut st =>
        { success := false, frames := st.frames, scrollTargets := st.scrollTargets,
          finalScrollY := st.scrollY, assemblerCalled := false, encodeCmds := [],
          fuelExhausted := true }
      | .exn st => mkFail st
      | .ok st₃ =>
        match burst cap 12 st₃ with
        | .exn st => mkFail st
        | .ok st₄ =>
          let a := assembleVideo venv tempDir videoOutputPath st₄.frames st₄.frameCount
          { success := a.1, frames := st₄.frames, scrollTargets := st₄.scrollTargets,
            finalScrollY := st₄.scrollY, assemblerCalled := a.2.1, encodeCmds := a.2.2,
            fuelExhausted := false }

/-- A DOM element, abstracted to the set of CSS selectors it matches. -/
structure Elem where
  sels : List String
deriving Repr, DecidableEq

/-- Whether an element matches a selector. -/
def elemMatches (el : Elem) (s : String) : Bool := el.sels.contains s

/-- The element-removal options dict accepted by
`remove_unwanted_elements`; the Python argument is `Option RemovalOptions`
(`options=None` by default). -/
structure RemovalOptions where
  remove_framer : Bool
  remove_common_unwanted : Bool
  custom_selectors : List String
deriving Repr, DecidableEq

/-- Framer-specific selectors (source lines 67-70). -/
def framer_selectors : List String :=
  ["div.ssr-variant", "div#__framer-badge-container"]

/-- Common unwanted-element selectors (source lines 76-89). -/
def common_unwanted : List String :=
  [".advertisement", ".ads", ".cookie-banner", ".gdpr-banner", "#cookie-notice",
   ".popup-overlay", ".modal-overlay", "[id*=\"cookie\"]", "[class*=\"cookie\"]",
   "[id*=\"gdpr\"]", "[class*=\"gdpr\"]", ".tracking-consent"]

/-- The resolved selector list of `remove_unwanted_elements` (source lines
59-96): always `script`/`noscript`, then the optional groups.  An empty
`custom_selectors` list is falsy in Python and adds nothing. -/
def selectorsToRemove (options : Option RemovalOptions) : List String :=
  ["script", "noscript"] ++
    (match options with
     | none => []
     | some o =>
       (if o.remove_framer then framer_selectors else []) ++
       (if o.remove_common_unwanted then common_unwanted else []) ++
       (if o.custom_selectors ≠ [] then o.custom_selectors else []))

/-- One iteration of the removal loop (source lines 100-109): the
`page.evaluate` that deletes all elements matching `s` and returns how
many matched.  `evalOk s` models whether the evaluate call succeeds (an
invalid selector raises and is swallowed, leaving page and count
unchanged). -/
def removeSelector (evalOk : String → Bool) (acc : List Elem × ℕ) (s : String) :
    List Elem × ℕ :=
  if evalOk s then
    ((acc.1.filter fun el => ¬ elemMatches el s),
     acc.2 + (acc.1.filter fun el => elemMatches el s).length)
  else acc

/-- Observable outcome of `remove_unwanted_elements`: the page after
removal, the `removed_count` accumulator (printed, source lines 111-114),
and the function's Python return value. -/
structure RemoveOutcome where
  page : List Elem
  removedCount : ℕ
  retVal : Option ℕ
deriving Repr, DecidableEq

/-- `remove_unwanted_elements` (source lines 56-117).  The function body
has no `return` statement, so the Python return value is `None`. -/
def remove_unwanted_elements (evalOk : String → Bool) (page : List Elem)
    (options : Option RemovalOptions) : RemoveOutcome :=
  let acc := (selectorsToRemove options).foldl (removeSelector evalOk) (page, 0)
  { page := acc.1, removedCount := acc.2, retVal := none }

/-- Browser page as seen by `get_main_content_dom`: for each selector the
list of `inner_html()` strings of the matched elements, plus the value of
the `document.body.innerHTML` fallback evaluate. -/
structure PageDom where
  query : String → List String
  bodyInnerHTML : String

/-- The priority-ordered selector list of `get_main_content_dom`
(source lines 357-366). -/
def main_selectors : List String :=
  ["main", "[role=\"main\"]", ".main-content", "#main-content", ".content",
   "#content", "body > div:first-child", "body"]

/-- The selector loop (source lines 371-377): the first selector matching
at least one element yields its first element's `inner_html()`. -/
def findMain (pg : PageDom) : List String → Option String × Option String
  | [] => (none, none)
  | s :: rest =>
    match pg.query s with
    | [] => findMain pg rest
    | h :: _ => (some h, some s)

/-- Python truthiness test `not main_content` for an optional string:
true for `None` and for the empty string. -/
def pyFalsyStr : Option String → Bool
  | none => true
  | some s => s.isEmpty

/-- `get_main_content_dom` (source lines 353-389): try the selectors in
priority order, then fall back to `document.body.innerHTML` whenever the
loop produced nothing truthy. -/
def get_main_content_dom (pg : PageDom) : Option String × Option String :=
  let r := findMain pg main_selectors
  if pyFalsyStr r.1 then (some pg.bodyInnerHTML, some "body") else r

/-- Outcome of the content-processing tail of
`capture_website_content_no_screenshot` (source lines 470-514). -/
structure ExtractPhase where
  success : Bool
  artifactWritten : Bool
deriving Repr, DecidableEq

/-- The content-processing tail of `capture_website_content_no_screenshot`
(source lines 470-514): `content_success = True`; the DOM artifact is
written only when `main_content` is truthy; the function then returns
`content_success` regardless. -/
def extraction_phase (pg : PageDom) : ExtractPhase :=
  let contentSuccess := true
  let r := get_main_content_dom pg
  if pyFalsyStr r.1 = false then
    { success := contentSuccess, artifactWritten := true }
  else
    { success := contentSuccess, artifactWritten := false }

/-- Decimal digits of a frame index, most significant first
(`Nat.digits` is little-endian, so reverse; `0` has no digits yet prints
as `0000` after padding). -/
def frameIndexDigits (k : ℕ) : List ℕ := (Nat.digits 10 k).reverse

/-- The digit string produced by the `f"frame_\x7bframe_count:04d\x7d.png"`
format: the decimal digits left-padded with zeros to a minimum width of 4. -/
def framePaddedDigits (k : ℕ) : List ℕ :=
  List.replicate (4 - (frameIndexDigits k).length) 0 ++ frameIndexDigits k

theorem tooShort_iff (th vh : ℤ) :
    2 * th ≤ 3 * vh ↔ (th : ℚ) ≤ (vh : ℚ) * 1.5 := by
  constructor
  · intro h
    have h' : (2 * th : ℚ) ≤ (3 * vh : ℚ) := by exact_mod_cast h
    push_cast at h'
    nlinarith [h']
  · intro h
    have h' : (2 * th : ℚ) ≤ (3 * vh : ℚ) := by nlinarith [h]
    exact_mod_cast h'

theorem pyRoundFrac_eq_pyRound (a b : ℤ) (hb : 0 < b) :
    pyRoundFrac a b = pyRound ((a : ℚ) / (b : ℚ)) := by
  have hbq : (0 : ℚ) < (b : ℚ) := by exact_mod_cast hb
  have hfl : ⌊(a : ℚ) / (b : ℚ)⌋ = a.fdiv b := by
    rw [Int.fdiv_eq_ediv a hb.le]
    have hb' : b = ((b.toNat : ℕ) : ℤ) := (Int.toNat_of_nonneg hb.le).symm
    rw [hb']
    have := Rat.floor_intCast_div_natCast a b.toNat
    exact_mod_cast this
  have hrem : (a : ℚ) / (b : ℚ) - ((a.fdiv b : ℤ) : ℚ)
      = ((a - a.fdiv b * b : ℤ) : ℚ) / (b : ℚ) := by
    push_cast
    field_simp
    ring
  have hlt : ∀ x : ℤ, (((x : ℤ) : ℚ) / (b : ℚ) < 1/2) ↔ 2 * x < b := by
    intro x
    rw [div_lt_div_iff₀ hbq (by norm_num : (0:ℚ) < 2)]
    constructor
    · intro h
      have h' : ((2 * x : ℤ) : ℚ) < ((b : ℤ) : ℚ) := by push_cast; linarith
      exact_mod_cast h'
    · intro h
      have h' : ((2 * x : ℤ) : ℚ) < ((b : ℤ) : ℚ) := by exact_mod_cast h
      push_cast at h'
      linarith
  have hgt : ∀ x : ℤ, ((1:ℚ)/2 < ((x : ℤ) : ℚ) / (b : ℚ)) ↔ b < 2 * x := by
    intro x
    rw [div_lt_div_iff₀ (by norm_num : (0:ℚ) < 2) hbq]
    constructor
    · intro h
      have h' : ((b : ℤ) : ℚ) < ((2 * x : ℤ) : ℚ) := by push_cast; linarith
      exact_mod_cast h'
    · intro h
      have h' : ((b : ℤ) : ℚ) < ((2 * x : ℤ) : ℚ) := by exact_mod_cast h
      push_cast at h'
      linarith
  unfold pyRound pyRoundFrac
  simp only [hfl, hrem, hlt, hgt]

theorem pyRound_le (q : ℚ) (m : ℤ) (h : q ≤ (m : ℚ)) : pyRound q ≤ m := by
  have hf : ⌊q⌋ ≤ m := by
    have := Int.floor_le_floor h
    rwa [Int.floor_intCast] at this
  have hf1 : ¬(q - (⌊q⌋ : ℚ) < 1/2) → ⌊q⌋ + 1 ≤ m := by
    intro hge
    rcases eq_or_lt_of_le hf with h' | h'
    · exact absurd (by rw [h']; linarith) hge
    · omega
  unfold pyRound
  dsimp only
  split_ifs with h1 h2 h3
  · exact hf
  · exact hf1 h1
  · exact hf
  · exact hf1 h1

theorem easedY_le (startY distance : ℤ) (i n : ℕ) (hn : 0 < n) (hd : 0 ≤ distance)
    (hi : i ≤ n) : easedY startY distance i n ≤ startY + distance := by
  have hb : (0 : ℤ) < cube (n : ℤ) := by
    have : (0:ℤ) < (n:ℤ) := by exact_mod_cast hn
    unfold cube
    positivity
  have hc : (0 : ℤ) ≤ cube ((n : ℤ) - (i : ℤ)) := by
    have : (0:ℤ) ≤ (n:ℤ) - (i:ℤ) := by
      have : (i:ℤ) ≤ (n:ℤ) := by exact_mod_cast hi
      omega
    unfold cube
    positivity
  have hA : startY * cube (n : ℤ) + distance * (cube (n : ℤ) - cube ((n : ℤ) - (i : ℤ)))
      ≤ (startY + distance) * cube (n : ℤ) := by
    have h1 : distance * (cube (n : ℤ) - cube ((n : ℤ) - (i : ℤ))) ≤ distance * cube (n : ℤ) :=
      mul_le_mul_of_nonneg_left (by omega) hd
    nlinarith [h1]
  unfold easedY
  rw [pyRoundFrac_eq_pyRound _ _ hb]
  apply pyRound_le
  rw [div_le_iff₀ (by exact_mod_cast hb : (0:ℚ) < (cube (n:ℤ) : ℚ))]
  exact_mod_cast hA

theorem easedY_eq_pyRound (startY distance : ℤ) (i n : ℕ) (hn : 0 < n) :
    easedY startY distance i n
      = pyRound ((startY : ℚ) + (distance : ℚ) * (1 - (1 - (i:ℚ)/(n:ℚ)) ^ 3)) := by
  have hb : (0 : ℤ) < cube (n : ℤ) := by
    have : (0:ℤ) < (n:ℤ) := by exact_mod_cast hn
    unfold cube
    positivity
  unfold easedY
  rw [pyRoundFrac_eq_pyRound _ _ hb]
  congr 1
  have hnq : ((n:ℚ)) ≠ 0 := by exact_mod_cast hn.ne'
  unfold cube
  push_cast
  field_simp
  ring

theorem capture_frameCount_le (cap : ℕ → Bool) (st : St) :
    st.frameCount ≤ (capture cap st).st.frameCount := by
  unfold capture
  split <;> simp [CapRes.st]

theorem capture_scrollTargets (cap : ℕ → Bool) (st : St) :
    (capture cap st).st.scrollTargets = st.scrollTargets := by
  unfold capture
  split <;> rfl

theorem capture_scrollY (cap : ℕ → Bool) (st : St) :
    (capture cap st).st.scrollY = st.scrollY := by
  unfold capture
  split <;> rfl

theorem capture_framesInv (cap : ℕ → Bool) (st : St)
    (h : st.frames = List.range st.frameCount) :
    (capture cap st).st.frames = List.range (capture cap st).st.frameCount := by
  unfold capture
  split
  · simp [CapRes.st, h, List.range_succ]
  · exact h

theorem capture_ok_frameCount (cap : ℕ → Bool) (st st' : St)
    (h : capture cap st = .ok st') : st'.frameCount = st.frameCount + 1 := by
  unfold capture at h
  split at h
  · cases h
    rfl
  · cases h

theorem capture_allok (cap : ℕ → Bool) (hcap : ∀ k, cap k = true) (st : St) :
    capture cap st
      = .ok { st with frames := st.frames ++ [st.frameCount], frameCount := st.frameCount + 1 } := by
  unfold capture
  rw [if_pos (hcap st.frameCount)]

theorem burst_frameCount_le (cap : ℕ → Bool) :
    ∀ (n : ℕ) (st : St), st.frameCount ≤ (burst cap n st).st.frameCount := by
  intro n
  induction n with
  | zero => intro st; exact le_refl _
  | succ n ih =>
    intro st
    unfold burst
    rcases hc : capture cap st with st' | st'
    · have h1 : st.frameCount ≤ st'.frameCount := by
        have := capture_frameCount_le cap st
        rwa [hc] at this
      exact h1.trans (ih st')
    · have := capture_frameCount_le cap st
      rwa [hc] at this

theorem burst_frameCount_upper (cap : ℕ → Bool) :
    ∀ (n : ℕ) (st : St), (burst cap n st).st.frameCount ≤ st.frameCount + n := by
  intro n
  induction n with
  | zero => intro st; exact Nat.le_refl _
  | succ n ih =>
    intro st
    unfold burst
    rcases hc : capture cap st with st' | st'
    · have h1 : st'.frameCount ≤ st.frameCount + 1 := by
        unfold capture at hc
        split at hc <;> cases hc <;> simp
      calc (burst cap n st').st.frameCount ≤ st'.frameCount + n := ih st'
        _ ≤ st.frameCount + (n + 1) := by omega
    · have h1 : st'.frameCount ≤ st.frameCount + 1 := by
        unfold capture at hc
        split at hc <;> cases hc <;> simp
      show st'.frameCount ≤ st.frameCount + (n + 1)
      omega

theorem burst_scrollTargets (cap : ℕ → Bool) :
    ∀ (n : ℕ) (st : St), (burst cap n st).st.scrollTargets = st.scrollTargets := by
  intro n
  induction n with
  | zero => intro st; rfl
  | succ n ih =>
    intro st
    unfold burst
    rcases hc : capture cap st with st' | st'
    · have h1 : st'.scrollTargets = st.scrollTargets := by
        have := capture_scrollTargets cap st
        rwa [hc] at this
      rw [ih st', h1]
    · have := capture_scrollTargets cap st
      rwa [hc] at this

theorem burst_scrollY (cap : ℕ → Bool) :
    ∀ (n : ℕ) (st : St), (burst cap n st).st.scrollY = st.scrollY := by
  intro n
  induction n with
  | zero => intro st; rfl
  | succ n ih =>
    intro st
    unfold burst
    rcases hc : capture cap st with st' | st'
    · have h1 : st'.scrollY = st.scrollY := by
        have := capture_scrollY cap st
        rwa [hc] at this
      rw [ih st', h1]
    · have := capture_scrollY cap st
      rwa [hc] at this

theorem burst_framesInv (cap : ℕ → Bool) :
    ∀ (n : ℕ) (st : St), st.frames = List.range st.frameCount →
      (burst cap n st).st.frames = List.range (burst cap n st).st.frameCount := by
  intro n
  induction n with
  | zero => intro st h; exact h
  | succ n ih =>
    intro st h
    unfold burst
    rcases hc : capture cap st with st' | st'
    · apply ih
      have := capture_framesInv cap st h
      rwa [hc] at this
    · have := capture_framesInv cap st h
      rwa [hc] at this

theorem burst_ok_frameCount (cap : ℕ → Bool) :
    ∀ (n : ℕ) (st st' : St), burst cap n st = .ok st' →
      st'.frameCount = st.frameCount + n := by
  intro n
  induction n with
  | zero =>
    intro st st' h
    cases h
    rfl
  | succ n ih =>
    intro st st' h
    unfold burst at h
    rcases hc : capture cap st with st₁ | st₁ <;> rw [hc] at h
    · have := ih st₁ st' h
      have h1 := capture_ok_frameCount cap st st₁ hc
      omega
    · cases h

theorem easeLoop_succ (e : Env) (cap : ℕ → Bool) (s d tgt : ℤ) (n r i : ℕ) (st : St) :
    easeLoop e cap s d tgt n (r + 1) i st =
      (match capture cap { st with
          scrollTargets := st.scrollTargets ++ [easedY s d i n]
          scrollY := e.clampY (easedY s d i n) } with
      | .exn st₂ => .exn st₂
      | .ok st₂ =>
        if easedY s d i n ≥ tgt - 1 then .ok st₂
        else easeLoop e cap s d tgt n r (i + 1) st₂) := rfl

theorem easeLoop_frameCount_le (e : Env) (cap : ℕ → Bool) (s d tgt : ℤ) (n : ℕ) :
    ∀ (remaining i : ℕ) (st : St),
      st.frameCount ≤ (easeLoop e cap s d tgt n remaining i st).st.frameCount := by
  intro remaining
  induction remaining with
  | zero => intro i st; exact le_refl _
  | succ r ih =>
    intro i st
    rw [easeLoop_succ]
    set st₁ : St := { st with
      scrollTargets := st.scrollTargets ++ [easedY s d i n]
      scrollY := e.clampY (easedY s d i n) } with hst₁
    have h0 : st.frameCount = st₁.frameCount := rfl
    split
    next st₂ hc =>
      have h1 : st₁.frameCount ≤ st₂.frameCount := by
        have := capture_frameCount_le cap st₁
        rwa [hc] at this
      exact h0.le.trans h1
    next st₂ hc =>
      have h1 : st₁.frameCount ≤ st₂.frameCount := by
        have := capture_frameCount_le cap st₁
        rwa [hc] at this
      split
      · exact h0.le.trans h1
      · exact (h0.le.trans h1).trans (ih (i + 1) st₂)

theorem easeLoop_frameCount_upper (e : Env) (cap : ℕ → Bool) (s d tgt : ℤ) (n : ℕ) :
    ∀ (remaining i : ℕ) (st : St),
      (easeLoop e cap s d tgt n remaining i st).st.frameCount ≤ st.frameCount + remaining := by
  intro remaining
  induction remaining with
  | zero => intro i st; exact Nat.le_refl _
  | succ r ih =>
    intro i st
    rw [easeLoop_succ]
    set st₁ : St := { st with
      scrollTargets := st.scrollTargets ++ [easedY s d i n]
      scrollY := e.clampY (easedY s d i n) } with hst₁
    have h0 : st₁.frameCount = st.frameCount := rfl
    split
    next st₂ hc =>
      have h1 : st₂.frameCount ≤ st₁.frameCount + 1 := by
        unfold capture at hc
        split at hc <;> cases hc <;> simp
      simp only [CapRes.st]
      omega
    next st₂ hc =>
      have h1 : st₂.frameCount ≤ st₁.frameCount + 1 := by
        unfold capture at hc
        split at hc <;> cases hc <;> simp
      split
      · simp only [CapRes.st]
        omega
      · have := ih (i + 1) st₂
        omega

theorem easeLoop_ok_lower (e : Env) (cap : ℕ → Bool) (s d tgt : ℤ) (n : ℕ)
    (r i : ℕ) (st st' : St)
    (h : easeLoop e cap s d tgt n (r + 1) i st = .ok st') :
    st.frameCount + 1 ≤ st'.frameCount := by
  rw [easeLoop_succ] at h
  set st₁ : St := { st with
    scrollTargets := st.scrollTargets ++ [easedY s d i n]
    scrollY := e.clampY (easedY s d i n) } with hst₁
  split at h
  next st₂ hc => cases h
  next st₂ hc =>
    have h1 : st₂.frameCount = st₁.frameCount + 1 := capture_ok_frameCount cap st₁ st₂ hc
    have h0 : st₁.frameCount = st.frameCount := rfl
    split at h
    · cases h
      omega
    · have := easeLoop_frameCount_le e cap s d tgt n r (i + 1) st₂
      rw [h] at this
      simp only [CapRes.st] at this
      omega

theorem easeLoop_framesInv (e : Env) (cap : ℕ → Bool) (s d tgt : ℤ) (n : ℕ) :
    ∀ (remaining i : ℕ) (st : St), st.frames = List.range st.frameCount →
      (easeLoop e cap s d tgt n remaining i st).st.frames
        = List.range (easeLoop e cap s d tgt n remaining i st).st.frameCount := by
  intro remaining
  induction remaining with
  | zero => intro i st h; exact h
  | succ r ih =>
    intro i st h
    rw [easeLoop_succ]
    set st₁ : St := { st with
      scrollTargets := st.scrollTargets ++ [easedY s d i n]
      scrollY := e.clampY (easedY s d i n) } with hst₁
    have h1 : st₁.frames = List.range st₁.frameCount := h
    split
    next st₂ hc =>
      have := capture_framesInv cap st₁ h1
      rwa [hc] at this
    next st₂ hc =>
      have h2 : st₂.frames = List.range st₂.frameCount := by
        have := capture_framesInv cap st₁ h1
        rwa [hc] at this
      split
      · exact h2
      · exact ih (i + 1) st₂ h2

theorem easeLoop_targets (e : Env) (cap : ℕ → Bool) (s d tgt : ℤ) (n : ℕ)
    (hn : 0 < n) (hd : 0 ≤ d) :
    ∀ (remaining i : ℕ) (st : St), i + remaining ≤ n + 1 →
      ∀ y ∈ (easeLoop e cap s d tgt n remaining i st).st.scrollTargets,
        y ∈ st.scrollTargets ∨ y ≤ s + d := by
  intro remaining
  induction remaining with
  | zero => intro i st _ y hy; exact Or.inl hy
  | succ r ih =>
    intro i st hle y hy
    have hin : i ≤ n := by omega
    have hyb : easedY s d i n ≤ s + d := easedY_le s d i n hn hd hin
    rw [easeLoop_succ] at hy
    set st₁ : St := { st with
      scrollTargets := st.scrollTargets ++ [easedY s d i n]
      scrollY := e.clampY (easedY s d i n) } with hst₁
    have hmem : ∀ z ∈ st₁.scrollTargets, z ∈ st.scrollTargets ∨ z ≤ s + d := by
      intro z hz
      rcases List.mem_append.mp hz with hz | hz
      · exact Or.inl hz
      · rcases List.mem_singleton.mp hz with rfl
        exact Or.inr hyb
    split at hy
    next st₂ hc =>
      have h2 : st₂.scrollTargets = st₁.scrollTargets := by
        have := capture_scrollTargets cap st₁
        rwa [hc] at this
      exact hmem y (h2 ▸ hy)
    next st₂ hc =>
      have h2 : st₂.scrollTargets = st₁.scrollTargets := by
        have := capture_scrollTargets cap st₁
        rwa [hc] at this
      split at hy
      · exact hmem y (h2 ▸ hy)
      · rcases ih (i + 1) st₂ (by omega) y hy with h | h
        · exact hmem y (h2 ▸ h)
        · exact Or.inr h

theorem easeLoop_allok (e : Env) (cap : ℕ → Bool) (hcap : ∀ k, cap k = true)
    (s d tgt : ℤ) (n : ℕ) :
    ∀ (remaining i : ℕ) (st : St), ∃ st', easeLoop e cap s d tgt n remaining i st = .ok st' := by
  intro remaining
  induction remaining with
  | zero => intro i st; exact ⟨st, rfl⟩
  | succ r ih =>
    intro i st
    rw [easeLoop_succ]
    set st₁ : St := { st with
      scrollTargets := st.scrollTargets ++ [easedY s d i n]
      scrollY := e.clampY (easedY s d i n) } with hst₁
    rw [capture_allok cap hcap st₁]
    dsimp only
    split
    · exact ⟨_, rfl⟩
    · exact ih (i + 1) _

theorem outerLoop_succ (e : Env) (cap : ℕ → Bool) (rand : ℕ → ℕ × ℕ)
    (step M : ℤ) (fuel seg : ℕ) (current : ℤ) (st : St) :
    outerLoop e cap rand step M (fuel + 1) seg current st =
      (if current < M - 2 then
        (if max 0 (min (current + step) M - current) ≤ 0 then .ok st
         else
           match easeLoop e cap current (max 0 (min (current + step) M - current))
               (min (current + step) M) (max 8 ((rand seg).1 / (rand seg).2))
               (max 8 ((rand seg).1 / (rand seg).2)) 1 st with
           | .exn st₁ => .exn st₁
           | .ok st₁ =>
             if st₁.scrollY = current then .ok st₁
             else
               match burst cap 12 st₁ with
               | .exn st₂ => .exn st₂
               | .ok st₂ =>
                 if st₂.frameCount > 360 then .ok st₂
                 else outerLoop e cap rand step M fuel (seg + 1) st₁.scrollY st₂)
      else .ok st) := rfl

theorem burst_allok (cap : ℕ → Bool) (hcap : ∀ k, cap k = true) :
    ∀ (n : ℕ) (st : St), ∃ st', burst cap n st = .ok st' := by
  intro n
  induction n with
  | zero => intro st; exact ⟨st, rfl⟩
  | succ n ih =>
    intro st
    unfold burst
    rw [capture_allok cap hcap st]
    exact ih _

theorem outerLoop_frameCount_le (e : Env) (cap : ℕ → Bool) (rand : ℕ → ℕ × ℕ)
    (step M : ℤ) :
    ∀ (fuel seg : ℕ) (current : ℤ) (st : St),
      st.frameCount ≤ (outerLoop e cap rand step M fuel seg current st).st.frameCount := by
  intro fuel
  induction fuel with
  | zero => intro seg current st; exact le_refl _
  | succ fuel ih =>
    intro seg current st
    rw [outerLoop_succ]
    split
    · split
      · exact le_refl _
      · split
        next st₁ hc =>
          have := easeLoop_frameCount_le e cap current
            (max 0 (min (current + step) M - current)) (min (current + step) M)
            (max 8 ((rand seg).1 / (rand seg).2)) (max 8 ((rand seg).1 / (rand seg).2)) 1 st
          rwa [hc] at this
        next st₁ hc =>
          have h1 : st.frameCount ≤ st₁.frameCount := by
            have := easeLoop_frameCount_le e cap current
              (max 0 (min (current + step) M - current)) (min (current + step) M)
              (max 8 ((rand seg).1 / (rand seg).2)) (max 8 ((rand seg).1 / (rand seg).2)) 1 st
            rwa [hc] at this
          split
          · exact h1
          · split
            next st₂ hb =>
              have h2 : st₁.frameCount ≤ st₂.frameCount := by
                have := burst_frameCount_le cap 12 st₁
                rwa [hb] at this
              exact h1.trans h2
            next st₂ hb =>
              have h2 : st₁.frameCount ≤ st₂.frameCount := by
                have := burst_frameCount_le cap 12 st₁
                rwa [hb] at this
              split
              · exact h1.trans h2
              · exact (h1.trans h2).trans (ih (seg + 1) st₁.scrollY st₂)
    · exact le_refl _

theorem outerLoop_framesInv (e : Env) (cap : ℕ → Bool) (rand : ℕ → ℕ × ℕ)
    (step M : ℤ) :
    ∀ (fuel seg : ℕ) (current : ℤ) (st : St), st.frames = List.range st.frameCount →
      (outerLoop e cap rand step M fuel seg current st).st.frames
        = List.range (outerLoop e cap rand step M fuel seg current st).st.frameCount := by
  intro fuel
  induction fuel with
  | zero => intro seg current st h; exact h
  | succ fuel ih =>
    intro seg current st h
    rw [outerLoop_succ]
    split
    · split
      · exact h
      · split
        next st₁ hc =>
          have := easeLoop_framesInv e cap current
            (max 0 (min (current + step) M - current)) (min (current + step) M)
            (max 8 ((rand seg).1 / (rand seg).2)) (max 8 ((rand seg).1 / (rand seg).2)) 1 st h
          rwa [hc] at this
        next st₁ hc =>
          have h1 : st₁.frames = List.range st₁.frameCount := by
            have := easeLoop_framesInv e cap current
              (max 0 (min (current + step) M - current)) (min (current + step) M)
              (max 8 ((rand seg).1 / (rand seg).2)) (max 8 ((rand seg).1 / (rand seg).2)) 1 st h
            rwa [hc] at this
          split
          · exact h1
          · split
            next st₂ hb =>
              have := burst_framesInv cap 12 st₁ h1
              rwa [hb] at this
            next st₂ hb =>
              have h2 : st₂.frames = List.range st₂.frameCount := by
                have := burst_framesInv cap 12 st₁ h1
                rwa [hb] at this
              split
              · exact h2
              · exact ih (seg + 1) st₁.scrollY st₂ h2
    · exact h

theorem outerLoop_targets (e : Env) (cap : ℕ → Bool) (rand : ℕ → ℕ × ℕ)
    (step M : ℤ) :
    ∀ (fuel seg : ℕ) (current : ℤ) (st : St),
      ∀ y ∈ (outerLoop e cap rand step M fuel seg current st).st.scrollTargets,
        y ∈ st.scrollTargets ∨ y ≤ M := by
  intro fuel
  induction fuel with
  | zero => intro seg current st y hy; exact Or.inl hy
  | succ fuel ih =>
    intro seg current st y hy
    rw [outerLoop_succ] at hy
    split at hy
    · split at hy
      · exact Or.inl hy
      next hdist =>
        have hd0 : (0:ℤ) ≤ max 0 (min (current + step) M - current) := le_max_left 0 _
        have hdpos : (0:ℤ) < max 0 (min (current + step) M - current) := by omega
        have htv : current + max 0 (min (current + step) M - current) ≤ M := by
          have h1 : min (current + step) M ≤ M := min_le_right _ _
          rcases le_or_lt (min (current + step) M - current) 0 with h | h
          · omega
          · rw [max_eq_right h.le]
            omega
        have hease := easeLoop_targets e cap current
          (max 0 (min (current + step) M - current)) (min (current + step) M)
          (max 8 ((rand seg).1 / (rand seg).2)) (by omega : 0 < max 8 ((rand seg).1 / (rand seg).2))
          hd0 (max 8 ((rand seg).1 / (rand seg).2)) 1 st (by omega)
        split at hy
        next st₁ hc =>
          have := hease y (by rw [hc]; exact hy)
          rcases this with h | h
          · exact Or.inl h
          · exact Or.inr (h.trans htv)
        next st₁ hc =>
          have h1 : ∀ z ∈ st₁.scrollTargets, z ∈ st.scrollTargets ∨ z ≤ M := by
            intro z hz
            have := hease z (by rw [hc]; exact hz)
            rcases this with h | h
            · exact Or.inl h
            · exact Or.inr (h.trans htv)
          split at hy
          · exact h1 y hy
          · split at hy
            next st₂ hb =>
              have h2 : st₂.scrollTargets = st₁.scrollTargets := by
                have := burst_scrollTargets cap 12 st₁
                rwa [hb] at this
              exact h1 y (h2 ▸ hy)
            next st₂ hb =>
              have h2 : st₂.scrollTargets = st₁.scrollTargets := by
                have := burst_scrollTargets cap 12 st₁
                rwa [hb] at this
              split at hy
              · exact h1 y (h2 ▸ hy)
              · rcases ih (seg + 1) st₁.scrollY st₂ y hy with h | h
                · exact h1 y (h2 ▸ h)
                · exact Or.inr h
    · exact Or.inl hy

theorem easeLoop_ok_lower' (e : Env) (cap : ℕ → Bool) (s d tgt : ℤ) (n : ℕ)
    (remaining i : ℕ) (st st' : St) (hr : 1 ≤ remaining)
    (h : easeLoop e cap s d tgt n remaining i st = .ok st') :
    st.frameCount + 1 ≤ st'.frameCount := by
  cases remaining with
  | zero => omega
  | succ r => exact easeLoop_ok_lower e cap s d tgt n r i st st' h

theorem outerLoop_no_fuelOut (e : Env) (cap : ℕ → Bool) (rand : ℕ → ℕ × ℕ)
    (step M : ℤ) :
    ∀ (fuel seg : ℕ) (current : ℤ) (st : St), st.frameCount ≤ 360 →
      360 < st.frameCount + 13 * fuel →
      ∀ st', outerLoop e cap rand step M fuel seg current st ≠ .fuelOut st' := by
  intro fuel
  induction fuel with
  | zero => intro seg current st h1 h2 st'; omega
  | succ fuel ih =>
    intro seg current st h1 h2 st'
    rw [outerLoop_succ]
    split
    · split
      · exact fun h => LoopRes.noConfusion h
      · split
        next st₁ hc => exact fun h => LoopRes.noConfusion h
        next st₁ hc =>
          split
          · exact fun h => LoopRes.noConfusion h
          · split
            next st₂ hb => exact fun h => LoopRes.noConfusion h
            next st₂ hb =>
              split
              · exact fun h => LoopRes.noConfusion h
              next hcap360 =>
                have hl : st.frameCount + 1 ≤ st₁.frameCount :=
                  easeLoop_ok_lower' e cap current
                    (max 0 (min (current + step) M - current)) (min (current + step) M)
                    (max 8 ((rand seg).1 / (rand seg).2)) (max 8 ((rand seg).1 / (rand seg).2))
                    1 st st₁ (by omega) hc
                have hb12 : st₂.frameCount = st₁.frameCount + 12 :=
                  burst_ok_frameCount cap 12 st₁ st₂ hb
                have h360 : st₂.frameCount ≤ 360 := by omega
                exact ih (seg + 1) st₁.scrollY st₂ h360 (by omega) st'
    · exact fun h => LoopRes.noConfusion h

theorem outerLoop_not_exn (e : Env) (cap : ℕ → Bool) (hcap : ∀ k, cap k = true)
    (rand : ℕ → ℕ × ℕ) (step M : ℤ) :
    ∀ (fuel seg : ℕ) (current : ℤ) (st : St),
      ∀ st', outerLoop e cap rand step M fuel seg current st ≠ .exn st' := by
  intro fuel
  induction fuel with
  | zero => intro seg current st st'; exact fun h => LoopRes.noConfusion h
  | succ fuel ih =>
    intro seg current st st'
    rw [outerLoop_succ]
    split
    · split
      · exact fun h => LoopRes.noConfusion h
      · split
        next st₁ hc =>
          rcases easeLoop_allok e cap hcap current
              (max 0 (min (current + step) M - current)) (min (current + step) M)
              (max 8 ((rand seg).1 / (rand seg).2)) (max 8 ((rand seg).1 / (rand seg).2))
              1 st with ⟨st'', h''⟩
          rw [hc] at h''
          exact absurd h'' (fun h => CapRes.noConfusion h)
        next st₁ hc =>
          split
          · exact fun h => LoopRes.noConfusion h
          · split
            next st₂ hb =>
              rcases burst_allok cap hcap 12 st₁ with ⟨st'', h''⟩
              rw [hb] at h''
              exact absurd h'' (fun h => CapRes.noConfusion h)
            next st₂ hb =>
              split
              · exact fun h => LoopRes.noConfusion h
              · exact ih (seg + 1) st₁.scrollY st₂ st'
    · exact fun h => LoopRes.noConfusion h

theorem outerLoop_frameCount_upper (e : Env) (cap : ℕ → Bool) (rand : ℕ → ℕ × ℕ)
    (step M : ℤ) (hr : ∀ s, (rand s).1 ≤ 1100 ∧ 70 ≤ (rand s).2) :
    ∀ (fuel seg : ℕ) (current : ℤ) (st : St),
      (outerLoop e cap rand step M fuel seg current st).st.frameCount
        ≤ max st.frameCount 360 + 27 := by
  intro fuel
  induction fuel with
  | zero =>
    intro seg current st
    simp only [outerLoop, LoopRes.st]
    omega
  | succ fuel ih =>
    intro seg current st
    have hfis : max 8 ((rand seg).1 / (rand seg).2) ≤ 15 := by
      have h1 : (rand seg).1 / (rand seg).2 ≤ 1100 / (rand seg).2 :=
        Nat.div_le_div_right (hr seg).1
      have h2 : 1100 / (rand seg).2 ≤ 1100 / 70 := by
        apply Nat.div_le_div_left (hr seg).2
        omega
      omega
    rw [outerLoop_succ]
    split
    · split
      · simp only [LoopRes.st]
        omega
      · split
        next st₁ hc =>
          have := easeLoop_frameCount_upper e cap current
            (max 0 (min (current + step) M - current)) (min (current + step) M)
            (max 8 ((rand seg).1 / (rand seg).2)) (max 8 ((rand seg).1 / (rand seg).2)) 1 st
          rw [hc] at this
          simp only [CapRes.st, LoopRes.st] at *
          omega
        next st₁ hc =>
          have h1 : st₁.frameCount ≤ st.frameCount + 15 := by
            have := easeLoop_frameCount_upper e cap current
              (max 0 (min (current + step) M - current)) (min (current + step) M)
              (max 8 ((rand seg).1 / (rand seg).2)) (max 8 ((rand seg).1 / (rand seg).2)) 1 st
            rw [hc] at this
            simp only [CapRes.st] at this
            omega
          split
          · simp only [LoopRes.st]
            omega
          · split
            next st₂ hb =>
              have h2 : st₂.frameCount ≤ st₁.frameCount + 12 := by
                have := burst_frameCount_upper cap 12 st₁
                rwa [hb] at this
              simp only [LoopRes.st]
              omega
            next st₂ hb =>
              have h2 : st₂.frameCount ≤ st₁.frameCount + 12 := by
                have := burst_frameCount_upper cap 12 st₁
                rwa [hb] at this
              split
              · simp only [LoopRes.st]
                omega
              next hcap360 =>
                have h360 : st₂.frameCount ≤ 360 := by omega
                have := ih (seg + 1) st₁.scrollY st₂
                omega
    · simp only [LoopRes.st]
      omega

theorem ofDigits_replicate_zero (b : ℕ) :
    ∀ m : ℕ, Nat.ofDigits b (List.replicate m 0) = 0 := by
  intro m
  induction m with
  | zero => rfl
  | succ m ih => simp [List.replicate_succ, Nat.ofDigits_cons, ih]

theorem frameIndexDigits_length_le (k : ℕ) (hk : k < 10000) :
    (frameIndexDigits k).length ≤ 4 := by
  unfold frameIndexDigits
  rw [List.length_reverse]
  rcases Nat.eq_zero_or_pos k with rfl | hk0
  · simp
  · rw [Nat.digits_len 10 k (by norm_num) hk0.ne']
    have : Nat.log 10 k < 4 := Nat.log_lt_of_lt_pow hk0.ne' (by norm_num at hk ⊢; omega)
    omega

theorem framePaddedDigits_length (k : ℕ) (hk : k < 10000) :
    (framePaddedDigits k).length = 4 := by
  have h := frameIndexDigits_length_le k hk
  unfold framePaddedDigits
  rw [List.length_append, List.length_replicate]
  omega

theorem framePaddedDigits_ofDigits (k : ℕ) :
    Nat.ofDigits 10 (framePaddedDigits k).reverse = k := by
  unfold framePaddedDigits frameIndexDigits
  rw [List.reverse_append, List.reverse_reverse, List.reverse_replicate,
    Nat.ofDigits_append, Nat.ofDigits_digits, ofDigits_replicate_zero]
  ring

theorem record_eq (e : Env) (cap : ℕ → Bool) (rand : ℕ → ℕ × ℕ) (venv : VideoEnv)
    (td op : String) :
    record_scrolling_video_sync e cap rand venv td op =
      (if 2 * e.measuredHeight ≤ 3 * e.viewportHeight then
        { success := true, frames := [], scrollTargets := [], finalScrollY := 0,
          assemblerCalled := false, encodeCmds := [], fuelExhausted := false }
      else
        match burst cap 12 { frames := [], frameCount := 0, scrollTargets := [], scrollY := 0 } with
        | .exn st => mkFail st
        | .ok st₁ =>
          match outerLoop e cap rand (e.viewportHeight - 100)
              (max 0 (e.measuredHeight - e.viewportHeight)) 100 0 0
              { st₁ with scrollY := e.clampY (st₁.scrollY + 60) } with
          | .fuelOut st =>
            { success := false, frames := st.frames, scrollTargets := st.scrollTargets,
              finalScrollY := st.scrollY, assemblerCalled := false, encodeCmds := [],
              fuelExhausted := true }
          | .exn st => mkFail st
          | .ok st₃ =>
            match burst cap 12 st₃ with
            | .exn st => mkFail st
            | .ok st₄ =>
              { success := (assembleVideo venv td op st₄.frames st₄.frameCount).1,
                frames := st₄.frames, scrollTargets := st₄.scrollTargets,
                finalScrollY := st₄.scrollY,
                assemblerCalled := (assembleVideo venv td op st₄.frames st₄.frameCount).2.1,
                encodeCmds := (assembleVideo venv td op st₄.frames st₄.frameCount).2.2,
                fuelExhausted := false }) := rfl

theorem record_targets_le (e : Env) (cap : ℕ → Bool) (rand : ℕ → ℕ × ℕ) (venv : VideoEnv)
    (td op : String) :
    ∀ y ∈ (record_scrolling_video_sync e cap rand venv td op).scrollTargets,
      y ≤ max 0 (e.measuredHeight - e.viewportHeight) := by
  intro y hy
  rw [record_eq] at hy
  split at hy
  · simp at hy
  · split at hy
    next st hb =>
      have h0 : st.scrollTargets = [] := by
        have := burst_scrollTargets cap 12
          { frames := [], frameCount := 0, scrollTargets := [], scrollY := 0 }
        rwa [hb] at this
      simp only [mkFail] at hy
      rw [h0] at hy
      simp at hy
    next st₁ hb =>
      have h1 : st₁.scrollTargets = [] := by
        have := burst_scrollTargets cap 12
          { frames := [], frameCount := 0, scrollTargets := [], scrollY := 0 }
        rwa [hb] at this
      have hout := outerLoop_targets e cap rand (e.viewportHeight - 100)
        (max 0 (e.measuredHeight - e.viewportHeight)) 100 0 0
        { st₁ with scrollY := e.clampY (st₁.scrollY + 60) }
      split at hy
      next st hl =>
        simp only at hy
        have := hout y (by rw [hl]; exact hy)
        rcases this with h | h
        · rw [show ({ st₁ with scrollY := e.clampY (st₁.scrollY + 60) } : St).scrollTargets
              = st₁.scrollTargets from rfl, h1] at h
          simp at h
        · exact h
      next st hl =>
        simp only [mkFail] at hy
        have := hout y (by rw [hl]; exact hy)
        rcases this with h | h
        · rw [show ({ st₁ with scrollY := e.clampY (st₁.scrollY + 60) } : St).scrollTargets
              = st₁.scrollTargets from rfl, h1] at h
          simp at h
        · exact h
      next st₃ hl =>
        have h3 : ∀ z ∈ st₃.scrollTargets, z ≤ max 0 (e.measuredHeight - e.viewportHeight) := by
          intro z hz
          have := hout z (by rw [hl]; exact hz)
          rcases this with h | h
          · rw [show ({ st₁ with scrollY := e.clampY (st₁.scrollY + 60) } : St).scrollTargets
                = st₁.scrollTargets from rfl, h1] at h
            simp at h
          · exact h
        split at hy
        next st hb2 =>
          have h4 : st.scrollTargets = st₃.scrollTargets := by
            have := burst_scrollTargets cap 12 st₃
            rwa [hb2] at this
          simp only [mkFail] at hy
          exact h3 y (h4 ▸ hy)
        next st₄ hb2 =>
          have h4 : st₄.scrollTargets = st₃.scrollTargets := by
            have := burst_scrollTargets cap 12 st₃
            rwa [hb2] at this
          simp only at hy
          exact h3 y (h4 ▸ hy)

theorem record_frames_range (e : Env) (cap : ℕ → Bool) (rand : ℕ → ℕ × ℕ) (venv : VideoEnv)
    (td op : String) (hr : ∀ s, (rand s).1 ≤ 1100 ∧ 70 ≤ (rand s).2) :
    ∃ c, (record_scrolling_video_sync e cap rand venv td op).frames = List.range c ∧ c ≤ 399 := by
  rw [record_eq]
  split
  · exact ⟨0, rfl, by omega⟩
  · have hinv0 : (({ frames := [], frameCount := 0, scrollTargets := [], scrollY := 0 } : St)).frames
        = List.range (({ frames := [], frameCount := 0, scrollTargets := [], scrollY := 0 } : St)).frameCount := rfl
    split
    next st hb =>
      refine ⟨st.frameCount, ?_, ?_⟩
      · have := burst_framesInv cap 12 _ hinv0
        rwa [hb] at this
      · have := burst_frameCount_upper cap 12
          { frames := [], frameCount := 0, scrollTargets := [], scrollY := 0 }
        rw [hb] at this
        simp only [CapRes.st] at this
        omega
    next st₁ hb =>
      have hinv1 : st₁.frames = List.range st₁.frameCount := by
        have := burst_framesInv cap 12 _ hinv0
        rwa [hb] at this
      have hc1 : st₁.frameCount ≤ 12 := by
        have := burst_frameCount_upper cap 12
          { frames := [], frameCount := 0, scrollTargets := [], scrollY := 0 }
        rw [hb] at this
        simpa using this
      have hinv2 : (({ st₁ with scrollY := e.clampY (st₁.scrollY + 60) } : St)).frames
          = List.range (({ st₁ with scrollY := e.clampY (st₁.scrollY + 60) } : St)).frameCount := hinv1
      have hup := outerLoop_frameCount_upper e cap rand (e.viewportHeight - 100)
        (max 0 (e.measuredHeight - e.viewportHeight)) hr 100 0 0
        { st₁ with scrollY := e.clampY (st₁.scrollY + 60) }
      have hinvL := outerLoop_framesInv e cap rand (e.viewportHeight - 100)
        (max 0 (e.measuredHeight - e.viewportHeight)) 100 0 0
        { st₁ with scrollY := e.clampY (st₁.scrollY + 60) } hinv2
      have hc2 : (({ st₁ with scrollY := e.clampY (st₁.scrollY + 60) } : St)).frameCount ≤ 12 := hc1
      split
      next st hl =>
        refine ⟨st.frameCount, ?_, ?_⟩
        · rw [hl] at hinvL
          exact hinvL
        · rw [hl] at hup
          simp only [LoopRes.st] at hup
          omega
      next st hl =>
        refine ⟨st.frameCount, ?_, ?_⟩
        · rw [hl] at hinvL
          exact hinvL
        · rw [hl] at hup
          simp only [LoopRes.st] at hup
          omega
      next st₃ hl =>
        have hinv3 : st₃.frames = List.range st₃.frameCount := by
          rw [hl] at hinvL
          exact hinvL
        have hc3 : st₃.frameCount ≤ 387 := by
          rw [hl] at hup
          simp only [LoopRes.st] at hup
          omega
        split
        next st hb2 =>
          refine ⟨st.frameCount, ?_, ?_⟩
          · have := burst_framesInv cap 12 st₃ hinv3
            rwa [hb2] at this
          · have := burst_frameCount_upper cap 12 st₃
            rw [hb2] at this
            simp only [CapRes.st] at this
            omega
        next st₄ hb2 =>
          refine ⟨st₄.frameCount, ?_, ?_⟩
          · have := burst_framesInv cap 12 st₃ hinv3
            rwa [hb2] at this
          · have := burst_frameCount_upper cap 12 st₃
            rw [hb2] at this
            simp only [CapRes.st] at this
            omega

theorem removeSelector_page_subset (evalOk : String → Bool) (acc : List Elem × ℕ) (s : String) :
    ∀ el ∈ (removeSelector evalOk acc s).1, el ∈ acc.1 := by
  unfold removeSelector
  split
  · intro el h
    exact List.mem_of_mem_filter h
  · intro el h
    exact h

theorem foldl_removeSelector_subset (evalOk : String → Bool) :
    ∀ (sels : List String) (acc : List Elem × ℕ),
      ∀ el ∈ (sels.foldl (removeSelector evalOk) acc).1, el ∈ acc.1 := by
  intro sels
  induction sels with
  | nil => intro acc el h; exact h
  | cons s rest ih =>
    intro acc el h
    rw [List.foldl_cons] at h
    exact removeSelector_page_subset evalOk acc s el (ih _ el h)

theorem removeSelector_valid (evalOk : String → Bool) (acc : List Elem × ℕ) (s : String)
    (h : evalOk s = true) :
    (removeSelector evalOk acc s).1 = acc.1.filter (fun el => ¬ elemMatches el s) := by
  unfold removeSelector
  rw [if_pos h]

theorem filter_match_partition_length (s : String) (l : List Elem) :
    (l.filter fun el => elemMatches el s).length
      + (l.filter fun el => ¬ elemMatches el s).length = l.length := by
  induction l with
  | nil => rfl
  | cons x xs ih =>
    by_cases h : elemMatches x s
    · simp [List.filter, h, ← ih]
      omega
    · simp [List.filter, h, ← ih]
      omega

theorem removeSelector_count (evalOk : String → Bool) (acc : List Elem × ℕ) (s : String) :
    (removeSelector evalOk acc s).2 + (removeSelector evalOk acc s).1.length
      = acc.2 + acc.1.length := by
  unfold removeSelector
  split
  · simp only
    have := filter_match_partition_length s acc.1
    omega
  · rfl

theorem foldl_removeSelector_count (evalOk : String → Bool) :
    ∀ (sels : List String) (acc : List Elem × ℕ),
      (sels.foldl (removeSelector evalOk) acc).2
          + (sels.foldl (removeSelector evalOk) acc).1.length
        = acc.2 + acc.1.length := by
  intro sels
  induction sels with
  | nil => intro acc; rfl
  | cons s rest ih =>
    intro acc
    rw [List.foldl_cons, ih, removeSelector_count]

theorem burst_exn_of_first_fail (cap : ℕ → Bool) (n : ℕ) (st : St)
    (h : cap st.frameCount = false) : burst cap (n + 1) st = .exn st := by
  show (match capture cap st with
    | CapRes.exn st' => CapRes.exn st'
    | CapRes.ok st' => burst cap n st') = CapRes.exn st
  unfold capture
  rw [h]
  rfl

/-- Claim C1: for every page whose total height is at most 1.5× the
viewport height (`total_height <= viewport_height * 1.5`, stated over `ℤ`
as `2·th ≤ 3·vh`; see `tooShort_iff`), `record_scrolling_video_sync` skips
recording entirely: it captures zero frames, issues no scroll target,
invokes no encoder (so no video file is produced), and returns success
(`True`). -/
theorem record_skips_short_pages (e : Env) (cap : ℕ → Bool) (rand : ℕ → ℕ × ℕ)
    (venv : VideoEnv) (td op : String)
    (h : 2 * e.measuredHeight ≤ 3 * e.viewportHeight) :
    record_scrolling_video_sync e cap rand venv td op =
      { success := true, frames := [], scrollTargets := [], finalScrollY := 0,
        assemblerCalled := false, encodeCmds := [], fuelExhausted := false } := by
  rw [record_eq, if_pos h]

/-- Witness for C1 at `total_height = 1000`, `viewport_height = 800`. -/
theorem record_skips_short_pages_witness :
    2 * (1000 : ℤ) ≤ 3 * 800 ∧
      record_scrolling_video_sync ⟨1000, 1000, 800⟩ (fun _ => true) (fun _ => (800, 80))
          ⟨true, 0⟩ "frames" "out.mp4" =
        { success := true, frames := [], scrollTargets := [], finalScrollY := 0,
          assemblerCalled := false, encodeCmds := [], fuelExhausted := false } :=
  ⟨by decide, record_skips_short_pages ⟨1000, 1000, 800⟩ (fun _ => true) (fun _ => (800, 80))
      ⟨true, 0⟩ "frames" "out.mp4" (by decide)⟩

/-- Counterexample to C2 as stated: with `total_height = 1000` and
`viewport_height = 800` the too-short check (`1000 ≤ 800 * 1.5 = 1200`)
fires, so the session issues no scroll target at all — there is no
"single segment" whose target could be clamped to 200. -/
theorem scroll_example_short_page_cex :
    (record_scrolling_video_sync ⟨1000, 1000, 800⟩ (fun _ => true) (fun _ => (800, 80))
        ⟨true, 0⟩ "frames" "out.mp4").scrollTargets = [] ∧
      (record_scrolling_video_sync ⟨1000, 1000, 800⟩ (fun _ => true) (fun _ => (800, 80))
          ⟨true, 0⟩ "frames" "out.mp4").frames = [] ∧
      (record_scrolling_video_sync ⟨1000, 1000, 800⟩ (fun _ => true) (fun _ => (800, 80))
          ⟨true, 0⟩ "frames" "out.mp4").success = true := by
  exact ⟨by decide, by decide, by decide⟩

/-- Claim C2 (amended): in every session of `record_scrolling_video_sync`,
every scroll target issued to the page (the eased intermediate offsets,
whose last value per segment is the clamped segment target) is at most
`max_scroll_top = max(0, total_height − viewport_height)`.  (The concrete
instance of the original claim is impossible: `total_height = 1000`,
`viewport_height = 800` trips the too-short check and issues no target;
see the counterexample.) -/
theorem scroll_targets_le_max_scroll_top (e : Env) (cap : ℕ → Bool) (rand : ℕ → ℕ × ℕ)
    (venv : VideoEnv) (td op : String) :
    ∀ y ∈ (record_scrolling_video_sync e cap rand venv td op).scrollTargets,
      y ≤ max 0 (e.measuredHeight - e.viewportHeight) :=
  record_targets_le e cap rand venv td op

/-- Witness for C2 (amended): with `total_height = 1300`,
`viewport_height = 800`, the clamped segment target 500 (not 700) is
issued and satisfies the bound. -/
theorem scroll_targets_le_max_scroll_top_witness :
    (500 : ℤ) ∈ (record_scrolling_video_sync ⟨1300, 1300, 800⟩ (fun _ => true)
        (fun _ => (800, 80)) ⟨true, 0⟩ "frames" "out.mp4").scrollTargets ∧
      (500 : ℤ) ≤ max 0 ((1300 : ℤ) - 800) :=
  ⟨by decide, scroll_targets_le_max_scroll_top ⟨1300, 1300, 800⟩ (fun _ => true)
      (fun _ => (800, 80)) ⟨true, 0⟩ "frames" "out.mp4" 500 (by decide)⟩

/-- Claim C3: in every session the frame files are indexed 0, 1, 2, …
with no gaps or reordering across the initial settle burst, the eased
segments, the pause bursts and the final settle burst, and each index is
rendered zero-padded to a fixed width of 4 digits (`frame_%04d.png`).
The hypothesis on `rand` reflects the source's draws
(`random.randint(800, 1100)`; `int(random.uniform(0.07, 0.09) * 1000)`
∈ [70, 90]). -/
theorem frame_indices_contiguous_zero_padded (e : Env) (cap : ℕ → Bool)
    (rand : ℕ → ℕ × ℕ) (venv : VideoEnv) (td op : String)
    (hr : ∀ s, (rand s).1 ≤ 1100 ∧ 70 ≤ (rand s).2) :
    (record_scrolling_video_sync e cap rand venv td op).frames
        = List.range (record_scrolling_video_sync e cap rand venv td op).frames.length ∧
      ∀ k ∈ (record_scrolling_video_sync e cap rand venv td op).frames,
        (framePaddedDigits k).length = 4
          ∧ Nat.ofDigits 10 (framePaddedDigits k).reverse = k := by
  rcases record_frames_range e cap rand venv td op hr with ⟨c, hc, hle⟩
  constructor
  · rw [hc, List.length_range]
  · intro k hk
    rw [hc] at hk
    have hk' : k < c := List.mem_range.mp hk
    exact ⟨framePaddedDigits_length k (by omega), framePaddedDigits_ofDigits k⟩

/-- Witness for C3 at a concrete recording session. -/
theorem frame_indices_contiguous_zero_padded_witness :
    (record_scrolling_video_sync ⟨2000, 2000, 960⟩ (fun _ => true) (fun _ => (800, 80))
        ⟨true, 0⟩ "frames" "out.mp4").frames
        = List.range (record_scrolling_video_sync ⟨2000, 2000, 960⟩ (fun _ => true)
            (fun _ => (800, 80)) ⟨true, 0⟩ "frames" "out.mp4").frames.length ∧
      ∀ k ∈ (record_scrolling_video_sync ⟨2000, 2000, 960⟩ (fun _ => true)
          (fun _ => (800, 80)) ⟨true, 0⟩ "frames" "out.mp4").frames,
        (framePaddedDigits k).length = 4
          ∧ Nat.ofDigits 10 (framePaddedDigits k).reverse = k :=
  frame_indices_contiguous_zero_padded ⟨2000, 2000, 960⟩ (fun _ => true) (fun _ => (800, 80))
    ⟨true, 0⟩ "frames" "out.mp4" (by intro s; refine ⟨?_, ?_⟩ <;> norm_num)

/-- Counterexample to C4 as stated: on a page where no selector matches
and the body fallback yields empty content, the orchestrating capture
function does NOT abort as Failed — it skips the DOM artifact and still
reports success (`True`). -/
theorem extraction_miss_reports_success_cex :
    get_main_content_dom ⟨fun _ => [], ""⟩ = (some "", some "body") ∧
      extraction_phase ⟨fun _ => [], ""⟩
        = { success := true, artifactWritten := false } :=
  ⟨rfl, rfl⟩

/-- Claim C4 (amended): when content extraction yields nothing truthy
(no selector matched and the body fallback is empty), the orchestrator
skips writing the DOM artifact but still returns success (`True`);
extraction failure never aborts the session as Failed. -/
theorem extraction_miss_skips_artifact_reports_success (pg : PageDom) :
    (extraction_phase pg).success = true ∧
      (pyFalsyStr (get_main_content_dom pg).1 = true →
        (extraction_phase pg).artifactWritten = false) := by
  unfold extraction_phase
  dsimp only
  constructor
  · split <;> rfl
  · intro h
    split
    next hcond =>
      rw [h] at hcond
      cases hcond
    · rfl

/-- Witness for C4 (amended) at the concrete empty page. -/
theorem extraction_miss_skips_artifact_witness :
    (extraction_phase ⟨fun _ => [], ""⟩).success = true ∧
      (extraction_phase ⟨fun _ => [], ""⟩).artifactWritten = false :=
  ⟨(extraction_miss_skips_artifact_reports_success ⟨fun _ => [], ""⟩).1,
   (extraction_miss_skips_artifact_reports_success ⟨fun _ => [], ""⟩).2 rfl⟩

/-- Counterexample to C5 as stated: a single transient capture failure
(the oracle fails only on call 0 and succeeds on every later call) is not
retried and aborts the whole session with `False`. -/
theorem capture_failure_aborts_cex :
    (record_scrolling_video_sync ⟨2000, 2000, 960⟩ (fun k => decide (k ≠ 0))
        (fun _ => (800, 80)) ⟨true, 0⟩ "frames" "out.mp4").success = false ∧
      (fun k => decide (k ≠ 0)) 0 = false ∧ (fun k => decide (k ≠ 0)) 1 = true :=
  ⟨by decide, rfl, rfl⟩

/-- Claim C5 (amended): an individual frame-capture failure is never
retried: the first capture exception immediately aborts the session with
a Failed (`False`) outcome and no video is assembled, even if every
subsequent capture would succeed. -/
theorem capture_failure_aborts_without_retry (e : Env) (cap : ℕ → Bool)
    (rand : ℕ → ℕ × ℕ) (venv : VideoEnv) (td op : String)
    (htall : ¬ 2 * e.measuredHeight ≤ 3 * e.viewportHeight) (h0 : cap 0 = false) :
    (record_scrolling_video_sync e cap rand venv td op).success = false ∧
      (record_scrolling_video_sync e cap rand venv td op).assemblerCalled = false ∧
      (record_scrolling_video_sync e cap rand venv td op).encodeCmds = [] := by
  rw [record_eq]
  rw [if_neg htall]
  rw [show (12 : ℕ) = 11 + 1 from rfl,
    burst_exn_of_first_fail cap 11 { frames := [], frameCount := 0, scrollTargets := [], scrollY := 0 } h0]
  exact ⟨rfl, rfl, rfl⟩

/-- Witness for C5 (amended) at a concrete session whose first capture
fails. -/
theorem capture_failure_aborts_without_retry_witness :
    ¬ 2 * (2000 : ℤ) ≤ 3 * 960 ∧
      ((record_scrolling_video_sync ⟨2000, 2000, 960⟩ (fun k => decide (k ≠ 0))
          (fun _ => (800, 80)) ⟨true, 0⟩ "frames" "out.mp4").success = false ∧
        (record_scrolling_video_sync ⟨2000, 2000, 960⟩ (fun k => decide (k ≠ 0))
            (fun _ => (800, 80)) ⟨true, 0⟩ "frames" "out.mp4").assemblerCalled = false ∧
        (record_scrolling_video_sync ⟨2000, 2000, 960⟩ (fun k => decide (k ≠ 0))
            (fun _ => (800, 80)) ⟨true, 0⟩ "frames" "out.mp4").encodeCmds = []) :=
  ⟨by decide, capture_failure_aborts_without_retry ⟨2000, 2000, 960⟩ (fun k => decide (k ≠ 0))
      (fun _ => (800, 80)) ⟨true, 0⟩ "frames" "out.mp4" (by decide) rfl⟩

/-- Counterexample to C6 as stated: on a page measured at 2000px that has
grown to 5000px by the time the loop scrolls (new bottom
`max(0, 5000 − 960) = 4040`), no scroll target ever exceeds the original
`max_scroll_top = 1040` and the recording ends at offset 1039 — the code
never recomputes `max_scroll_top`, so scrolling does not continue to the
new bottom of the page. -/
theorem growth_not_recomputed_cex :
    (∀ y ∈ (record_scrolling_video_sync ⟨2000, 5000, 960⟩ (fun _ => true)
        (fun _ => (800, 80)) ⟨true, 0⟩ "frames" "out.mp4").scrollTargets, y ≤ 1040) ∧
      (record_scrolling_video_sync ⟨2000, 5000, 960⟩ (fun _ => true) (fun _ => (800, 80))
          ⟨true, 0⟩ "frames" "out.mp4").finalScrollY = 1039 ∧
      (record_scrolling_video_sync ⟨2000, 5000, 960⟩ (fun _ => true) (fun _ => (800, 80))
          ⟨true, 0⟩ "frames" "out.mp4").success = true ∧
      (1040 : ℤ) < max 0 ((5000 : ℤ) - 960) :=
  ⟨by decide, by decide, by decide, by decide⟩

/-- Claim C6 (amended): `record_scrolling_video_sync` computes
`max_scroll_top` once, from the height measured at recording start, and
never recomputes it; when the page grows mid-scroll every scroll target
is still bounded by the original `max(0, measured_height −
viewport_height)`, so scrolling does not extend to the new bottom.  (The
mid-scroll height re-measurement the spec describes exists only in the
separate `take_full_page_screenshot_sync` function.) -/
theorem growth_does_not_extend_scroll_targets (e : Env) (cap : ℕ → Bool)
    (rand : ℕ → ℕ × ℕ) (venv : VideoEnv) (td op : String)
    (hgrow : e.measuredHeight < e.actualHeight) :
    ∀ y ∈ (record_scrolling_video_sync e cap rand venv td op).scrollTargets,
      y ≤ max 0 (e.measuredHeight - e.viewportHeight) :=
  fun y hy => record_targets_le e cap rand venv td op y hy

/-- Witness for C6 (amended): the grown page of the counterexample. -/
theorem growth_does_not_extend_scroll_targets_witness :
    (2000 : ℤ) < 5000 ∧
      (1039 : ℤ) ∈ (record_scrolling_video_sync ⟨2000, 5000, 960⟩ (fun _ => true)
          (fun _ => (800, 80)) ⟨true, 0⟩ "frames" "out.mp4").scrollTargets ∧
      (1039 : ℤ) ≤ max 0 ((2000 : ℤ) - 960) :=
  ⟨by decide, by decide,
   growth_does_not_extend_scroll_targets ⟨2000, 5000, 960⟩ (fun _ => true)
     (fun _ => (800, 80)) ⟨true, 0⟩ "frames" "out.mp4" (by decide) 1039 (by decide)⟩

/-- Claim C7: the video-assembly branch with 0 or 1 captured frames
returns success without invoking the encoder; with ≥ 2 frames (and the
encoder tool reachable) it runs the encode command exactly once, passing
the configured frame rate `-framerate 12`. -/
theorem video_assembly_threshold (venv : VideoEnv) (td op : String)
    (frames : List ℕ) (fc : ℕ) :
    (frames.length ≤ 1 → assembleVideo venv td op frames fc = (true, false, [])) ∧
      (2 ≤ frames.length → venv.ffmpegAvailable = true →
        (assembleVideo venv td op frames fc).2.2 = [ffmpegCmd td op] ∧
          (ffmpegCmd td op)[2]? = some "-framerate" ∧
          (ffmpegCmd td op)[3]? = some "12") := by
  constructor
  · intro h
    unfold assembleVideo
    rw [if_neg]
    intro hcon
    omega
  · intro h2 hav
    unfold assembleVideo
    rw [if_pos ⟨List.ne_nil_of_length_pos (by omega), by omega⟩]
    unfold create_video_from_frames_sync
    rw [if_neg (by rw [hav]; exact fun hc => Bool.noConfusion hc)]
    exact ⟨rfl, rfl, rfl⟩

/-- Witness for C7 at 1 frame (no-op success) and 2 frames (one encode
command carrying `-framerate 12`). -/
theorem video_assembly_threshold_witness :
    (([0] : List ℕ).length ≤ 1 ∧
        assembleVideo ⟨true, 0⟩ "frames" "out.mp4" [0] 1 = (true, false, [])) ∧
      (2 ≤ ([0, 1] : List ℕ).length ∧
        ((assembleVideo ⟨true, 0⟩ "frames" "out.mp4" [0, 1] 2).2.2
            = [ffmpegCmd "frames" "out.mp4"] ∧
          (ffmpegCmd "frames" "out.mp4")[2]? = some "-framerate" ∧
          (ffmpegCmd "frames" "out.mp4")[3]? = some "12")) :=
  ⟨⟨by decide, (video_assembly_threshold ⟨true, 0⟩ "frames" "out.mp4" [0] 1).1 (by decide)⟩,
   ⟨by decide, (video_assembly_threshold ⟨true, 0⟩ "frames" "out.mp4" [0, 1] 2).2 (by decide) rfl⟩⟩

/-- Claim C8: for every options argument (including `None` and options
with all removal flags false and no custom selectors),
`remove_unwanted_elements` removes every element matching `script` and
`noscript` from the page.  (The hypotheses state that the removal
evaluates for the plain tag selectors `script`/`noscript` succeed; the
`try/except` in the loop exists for invalid custom selectors.) -/
theorem always_removes_script_noscript (evalOk : String → Bool) (page : List Elem)
    (options : Option RemovalOptions)
    (h1 : evalOk "script" = true) (h2 : evalOk "noscript" = true) :
    ∀ el ∈ (remove_unwanted_elements evalOk page options).page,
      elemMatches el "script" = false ∧ elemMatches el "noscript" = false := by
  intro el hel
  unfold remove_unwanted_elements at hel
  dsimp only at hel
  obtain ⟨rest, hrest⟩ : ∃ rest, selectorsToRemove options = "script" :: "noscript" :: rest :=
    ⟨_, rfl⟩
  rw [hrest, List.foldl_cons, List.foldl_cons] at hel
  have hel2 := foldl_removeSelector_subset evalOk rest _ el hel
  rw [removeSelector_valid _ _ _ h2, removeSelector_valid _ _ _ h1] at hel2
  have hmem1 : el ∈ page.filter (fun el => ¬ elemMatches el "script") :=
    (List.mem_filter.mp hel2).1
  have hn : elemMatches el "noscript" = false := by
    have := (List.mem_filter.mp hel2).2
    simpa using this
  have hs : elemMatches el "script" = false := by
    have := (List.mem_filter.mp hmem1).2
    simpa using this
  exact ⟨hs, hn⟩

/-- Witness for C8 at a concrete page with a script element, under the
empty options `None`. -/
theorem always_removes_script_noscript_witness :
    (fun _ : String => true) "script" = true ∧
      ∀ el ∈ (remove_unwanted_elements (fun _ => true)
          [⟨["script"]⟩, ⟨["div"]⟩, ⟨["noscript"]⟩] none).page,
        elemMatches el "script" = false ∧ elemMatches el "noscript" = false :=
  ⟨rfl, always_removes_script_noscript (fun _ => true)
      [⟨["script"]⟩, ⟨["div"]⟩, ⟨["noscript"]⟩] none rfl rfl⟩

/-- Counterexample to C9 as stated: `remove_unwanted_elements` has no
`return` statement — it computes and logs the removed-element total but
returns `None`, not the count. -/
theorem remove_returns_none_cex :
    (remove_unwanted_elements (fun _ => true) [⟨["script"]⟩] none).removedCount = 1 ∧
      (remove_unwanted_elements (fun _ => true) [⟨["script"]⟩] none).retVal = none ∧
      (remove_unwanted_elements (fun _ => true) [⟨["script"]⟩] none).retVal ≠
        some (remove_unwanted_elements (fun _ => true) [⟨["script"]⟩] none).removedCount :=
  ⟨by decide, rfl, by decide⟩

/-- Claim C9 (amended): for every invocation,
`remove_unwanted_elements` computes the total count of elements removed
across all applied selectors (its internal `removed_count`, used for
logging, equals the number of elements deleted from the page), but its
Python return value is `None`, not that count. -/
theorem remove_counts_but_returns_none (evalOk : String → Bool) (page : List Elem)
    (options : Option RemovalOptions) :
    (remove_unwanted_elements evalOk page options).retVal = none ∧
      (remove_unwanted_elements evalOk page options).removedCount
          + (remove_unwanted_elements evalOk page options).page.length
        = page.length := by
  constructor
  · rfl
  · unfold remove_unwanted_elements
    dsimp only
    have := foldl_removeSelector_count evalOk (selectorsToRemove options) (page, 0)
    simpa using this

/-- Claim C10: whenever the too-short check does not fire and every
capture succeeds, the 12-frame initial and final settle bursts alone
guarantee at least 24 frames, so the "Not enough frames" branch is
unreachable and the assembler is always invoked (running the encode
command once when `ffmpeg` is available). -/
theorem settle_bursts_guarantee_min_frames (e : Env) (cap : ℕ → Bool)
    (rand : ℕ → ℕ × ℕ) (venv : VideoEnv) (td op : String)
    (htall : ¬ 2 * e.measuredHeight ≤ 3 * e.viewportHeight)
    (hcap : ∀ k, cap k = true) :
    24 ≤ (record_scrolling_video_sync e cap rand venv td op).frames.length ∧
      (record_scrolling_video_sync e cap rand venv td op).assemblerCalled = true ∧
      (record_scrolling_video_sync e cap rand venv td op).fuelExhausted = false ∧
      (venv.ffmpegAvailable = true →
        (record_scrolling_video_sync e cap rand venv td op).encodeCmds
          = [ffmpegCmd td op]) := by
  rw [record_eq, if_neg htall]
  rcases burst_allok cap hcap 12
    { frames := [], frameCount := 0, scrollTargets := [], scrollY := 0 } with ⟨st₁, hb1⟩
  rw [hb1]
  dsimp only
  have hc1 : st₁.frameCount = 12 := by
    have := burst_ok_frameCount cap 12 _ _ hb1
    simpa using this
  have hinv1 : st₁.frames = List.range st₁.frameCount := by
    have := burst_framesInv cap 12
      { frames := [], frameCount := 0, scrollTargets := [], scrollY := 0 } rfl
    rwa [hb1] at this
  rcases hout : outerLoop e cap rand (e.viewportHeight - 100)
      (max 0 (e.measuredHeight - e.viewportHeight)) 100 0 0
      { st₁ with scrollY := e.clampY (st₁.scrollY + 60) } with st₃ | st₃ | st₃
  · dsimp only
    rcases burst_allok cap hcap 12 st₃ with ⟨st₄, hb2⟩
    rw [hb2]
    dsimp only
    have hc3 : 12 ≤ st₃.frameCount := by
      have := outerLoop_frameCount_le e cap rand (e.viewportHeight - 100)
        (max 0 (e.measuredHeight - e.viewportHeight)) 100 0 0
        { st₁ with scrollY := e.clampY (st₁.scrollY + 60) }
      rw [hout] at this
      simp only [LoopRes.st] at this
      have h12 : (({ st₁ with scrollY := e.clampY (st₁.scrollY + 60) } : St)).frameCount = 12 :=
        hc1
      omega
    have hc4 : st₄.frameCount = st₃.frameCount + 12 := burst_ok_frameCount cap 12 st₃ st₄ hb2
    have hinv3 : st₃.frames = List.range st₃.frameCount := by
      have := outerLoop_framesInv e cap rand (e.viewportHeight - 100)
        (max 0 (e.measuredHeight - e.viewportHeight)) 100 0 0
        { st₁ with scrollY := e.clampY (st₁.scrollY + 60) } hinv1
      rwa [hout] at this
    have hinv4 : st₄.frames = List.range st₄.frameCount := by
      have := burst_framesInv cap 12 st₃ hinv3
      rwa [hb2] at this
    have hlen : st₄.frames.length = st₄.frameCount := by
      rw [hinv4, List.length_range]
    have hassem : st₄.frames ≠ [] ∧ 1 < st₄.frames.length :=
      ⟨List.ne_nil_of_length_pos (by omega), by omega⟩
    refine ⟨by omega, ?_, rfl, ?_⟩
    · show (assembleVideo venv td op st₄.frames st₄.frameCount).2.1 = true
      unfold assembleVideo
      rw [if_pos hassem]
    · intro hav
      show (assembleVideo venv td op st₄.frames st₄.frameCount).2.2 = [ffmpegCmd td op]
      unfold assembleVideo
      rw [if_pos hassem]
      unfold create_video_from_frames_sync
      rw [if_neg (by rw [hav]; exact fun hc => Bool.noConfusion hc)]
  · exact absurd hout (outerLoop_not_exn e cap hcap rand (e.viewportHeight - 100)
      (max 0 (e.measuredHeight - e.viewportHeight)) 100 0 0
      { st₁ with scrollY := e.clampY (st₁.scrollY + 60) } st₃)
  · have h1 : (({ st₁ with scrollY := e.clampY (st₁.scrollY + 60) } : St)).frameCount ≤ 360 := by
      have : (({ st₁ with scrollY := e.clampY (st₁.scrollY + 60) } : St)).frameCount = 12 := hc1
      omega
    have h2 : 360 < (({ st₁ with scrollY := e.clampY (st₁.scrollY + 60) } : St)).frameCount
        + 13 * 100 := by
      omega
    exact absurd hout (outerLoop_no_fuelOut e cap rand (e.viewportHeight - 100)
      (max 0 (e.measuredHeight - e.viewportHeight)) 100 0 0
      { st₁ with scrollY := e.clampY (st₁.scrollY + 60) } h1 h2 st₃)

/-- Witness for C10 at a concrete session with reliable captures. -/
theorem settle_bursts_guarantee_min_frames_witness :
    ¬ 2 * (2000 : ℤ) ≤ 3 * 960 ∧
      (24 ≤ (record_scrolling_video_sync ⟨2000, 2000, 960⟩ (fun _ => true)
          (fun _ => (800, 80)) ⟨true, 0⟩ "frames" "out.mp4").frames.length ∧
        (record_scrolling_video_sync ⟨2000, 2000, 960⟩ (fun _ => true) (fun _ => (800, 80))
            ⟨true, 0⟩ "frames" "out.mp4").assemblerCalled = true ∧
        (record_scrolling_video_sync ⟨2000, 2000, 960⟩ (fun _ => true) (fun _ => (800, 80))
            ⟨true, 0⟩ "frames" "out.mp4").fuelExhausted = false ∧
        ((⟨true, 0⟩ : VideoEnv).ffmpegAvailable = true →
          (record_scrolling_video_sync ⟨2000, 2000, 960⟩ (fun _ => true) (fun _ => (800, 80))
              ⟨true, 0⟩ "frames" "out.mp4").encodeCmds = [ffmpegCmd "frames" "out.mp4"])) :=
  ⟨by decide, settle_bursts_guarantee_min_frames ⟨2000, 2000, 960⟩ (fun _ => true)
      (fun _ => (800, 80)) ⟨true, 0⟩ "frames" "out.mp4" (by decide) (fun _ => rfl)⟩

end Shot
